import Mathlib

/-!
Shallow embedding of the bkmrks bookmark manager (server.js and the client
filter in App.js), together with proofs about the frozen claims.

Modelling conventions:
* JS numbers that serve as ids are modelled as rationals: the Create handler
  assigns id = Date.now() (an integer number of milliseconds), while the
  Import handler assigns id = Date.now() + Math.random(), a generally
  non-integral number.  Times and Math.random draws are oracle parameters.
* JS objects read from JSON may lack fields, so every content field of a
  stored record is an Option; an absent field is none.
* Each HTTP handler is a pure function from its request data and the
  current persisted Collection to a result; a result constructor that
  carries a written Collection models a writeBookmarks call with exactly
  that Collection, and any other constructor models an early return with
  no write.  The filesystem write itself is outside the model.
-/

/-- A stored bookmark record, as serialized in bookmarks.json.
The id field is always present (Create and Import both set it); all other
fields are whatever the producing handler stored, possibly absent. -/
structure Bookmark where
  id : ℚ
  title : Option String
  url : Option String
  category : Option String
  description : Option String
  dateAdded : Option String
deriving DecidableEq

/-- An element of the Import payload array: an arbitrary partial record,
possibly carrying its own id (which the handler discards). -/
structure RawBookmark where
  id : Option ℚ
  title : Option String
  url : Option String
  category : Option String
  description : Option String
  dateAdded : Option String
deriving DecidableEq

/-- The destructured request body of the Create and Update handlers:
const \x7b title, url, category, description \x7d = req.body. -/
structure RequestBody where
  title : Option String
  url : Option String
  category : Option String
  description : Option String
deriving DecidableEq

/-- JS falsiness of a string-or-absent body field: !x is true exactly when
the field is absent (undefined) or the empty string. -/
def jsFalsy : Option String → Bool
  | none => true
  | some s => decide (s = "")

/-- JS defaulting idiom (x || two-quote empty string) on a string-or-absent
field: absent or empty becomes the empty string. -/
def jsOrEmpty (x : Option String) : String :=
  x.getD ""

/-- Models parseInt(s) where s is the decimal rendering of a finite
numeric path id: truncation toward zero (Int.tdiv is T-division, and the
denominator of a rational is positive). -/
def jsParseInt (q : ℚ) : ℤ :=
  q.num.tdiv (q.den : ℤ)

/-- State of the backing document bookmarks.json as seen by readBookmarks:
absent, present but not valid JSON, or a parsed array of records. -/
inductive DocState where
  | missing
  | malformed
  | parsed (bs : List Bookmark)
deriving DecidableEq

/-- readBookmarks from server.js: try \x7b readFile; JSON.parse \x7d and on any
error (missing file or parse failure) log and return the empty array. -/
def readBookmarks : DocState → List Bookmark
  | DocState.missing => []
  | DocState.malformed => []
  | DocState.parsed bs => bs

/-- The GET /api/bookmarks handler body: respond with readBookmarks(). -/
def listBookmarks (d : DocState) : List Bookmark :=
  readBookmarks d

/-- The record object built by the Create handler: fresh time-based id,
request title and url, category and description defaulted to the empty
string, dateAdded set to the current date string. -/
def mkNewBookmark (now : ℤ) (today : String) (r : RequestBody) : Bookmark :=
  { id := (now : ℚ)
    title := r.title
    url := r.url
    category := some (jsOrEmpty r.category)
    description := some (jsOrEmpty r.description)
    dateAdded := some today }

/-- Outcome of POST /api/bookmarks: 400 validation error (before any read
or write), or 201 with the created record and the written Collection. -/
inductive CreateResult where
  | validationError
  | created (b : Bookmark) (written : List Bookmark)
deriving DecidableEq

/-- The POST /api/bookmarks handler: validate title and url, then append
the new record and write the whole Collection back. -/
def createBookmark (now : ℤ) (today : String) (r : RequestBody)
    (bs : List Bookmark) : CreateResult :=
  if jsFalsy r.title || jsFalsy r.url then CreateResult.validationError
  else
    CreateResult.created (mkNewBookmark now today r)
      (bs ++ [mkNewBookmark now today r])

/-- The Collection persisted on disk after a Create call: unchanged unless
the handler reached its writeBookmarks call. -/
def createPersisted (now : ℤ) (today : String) (r : RequestBody)
    (bs : List Bookmark) : List Bookmark :=
  match createBookmark now today r bs with
  | CreateResult.validationError => bs
  | CreateResult.created _ written => written

/-- The comparison b.id === bookmarkId used by the Update and Delete
handlers, where bookmarkId = parseInt(req.params.id). -/
def idMatches (pathId : ℚ) (b : Bookmark) : Bool :=
  decide (b.id = ((jsParseInt pathId : ℤ) : ℚ))

/-- The spread-update written at the matched index: every field of the old
record is kept except title, url, category and description, which are
taken from the request (the latter two defaulted to the empty string). -/
def applyUpdate (old : Bookmark) (r : RequestBody) : Bookmark :=
  { old with
    title := r.title
    url := r.url
    category := some (jsOrEmpty r.category)
    description := some (jsOrEmpty r.description) }

/-- Outcome of PUT /api/bookmarks/:id: 400 validation error, 404 when no
record matches the parsed id, or 200 with the updated record and the
written Collection. -/
inductive UpdateResult where
  | validationError
  | notFound
  | ok (b : Bookmark) (written : List Bookmark)
deriving DecidableEq

/-- The PUT /api/bookmarks/:id handler: parse the id, validate title and
url, find the first matching index, replace the record there in place and
write the whole Collection back; JS findIndex returning -1 corresponds to
findIdx returning the length. -/
def updateBookmark (pathId : ℚ) (r : RequestBody)
    (bs : List Bookmark) : UpdateResult :=
  if jsFalsy r.title || jsFalsy r.url then UpdateResult.validationError
  else if h : bs.findIdx (idMatches pathId) < bs.length then
    UpdateResult.ok (applyUpdate (bs.get ⟨bs.findIdx (idMatches pathId), h⟩) r)
      (bs.set (bs.findIdx (idMatches pathId))
        (applyUpdate (bs.get ⟨bs.findIdx (idMatches pathId), h⟩) r))
  else UpdateResult.notFound

/-- The Collection persisted on disk after an Update call. -/
def updatePersisted (pathId : ℚ) (r : RequestBody)
    (bs : List Bookmark) : List Bookmark :=
  match updateBookmark pathId r bs with
  | UpdateResult.ok _ written => written
  | _ => bs

/-- Outcome of DELETE /api/bookmarks/:id: 404 when filtering removed
nothing, or 200 with the written Collection. -/
inductive DeleteResult where
  | notFound
  | deleted (written : List Bookmark)
deriving DecidableEq

/-- The DELETE /api/bookmarks/:id handler: keep every record whose id
differs from the parsed id; 404 exactly when the lengths agree. -/
def deleteBookmark (pathId : ℚ) (bs : List Bookmark) : DeleteResult :=
  if (bs.filter (fun b => ! idMatches pathId b)).length = bs.length then
    DeleteResult.notFound
  else DeleteResult.deleted (bs.filter (fun b => ! idMatches pathId b))

/-- The Collection persisted on disk after a Delete call. -/
def deletePersisted (pathId : ℚ) (bs : List Bookmark) : List Bookmark :=
  match deleteBookmark pathId bs with
  | DeleteResult.deleted written => written
  | DeleteResult.notFound => bs

/-- The DELETE /api/bookmarks handler (clear all) writes the empty array
regardless of the current Collection. -/
def clearAllPersisted : List Bookmark :=
  []

/-- The spread \x7b ...bookmark, id: fresh \x7d built by the Import handler:
every supplied field is kept verbatim (absent stays absent), and the id
field is overwritten with the freshly drawn value. -/
def withNewId (fresh : ℚ) (r : RawBookmark) : Bookmark :=
  { id := fresh
    title := r.title
    url := r.url
    category := r.category
    description := r.description
    dateAdded := r.dateAdded }

/-- importedBookmarks.map(b => (\x7b ...b, id: Date.now() + Math.random() \x7d)):
the element at position k of the input receives the k-th oracle draw;
the auxiliary counter i tracks how many draws happened already. -/
def withNewIds (f : ℕ → ℚ) : List RawBookmark → ℕ → List Bookmark
  | [], _ => []
  | r :: rest, i => withNewId (f i) r :: withNewIds f rest (i + 1)

/-- Outcome of POST /api/bookmarks/import: 400 when the bookmarks field of
the body is not an array, else 200 with the reported count and the written
Collection. -/
inductive ImportResult where
  | invalidFormat
  | imported (count : ℕ) (written : List Bookmark)
deriving DecidableEq

/-- The POST /api/bookmarks/import handler: reject a non-array payload,
otherwise append the re-identified records to the current Collection and
report the length of the input as the count. -/
def importHandler (f : ℕ → ℚ) (body : Option (List RawBookmark))
    (current : List Bookmark) : ImportResult :=
  match body with
  | none => ImportResult.invalidFormat
  | some importedBookmarks =>
      ImportResult.imported importedBookmarks.length
        (current ++ withNewIds f importedBookmarks 0)

/-- The Collection persisted on disk after an Import call. -/
def importPersisted (f : ℕ → ℚ) (body : Option (List RawBookmark))
    (current : List Bookmark) : List Bookmark :=
  match importHandler f body current with
  | ImportResult.invalidFormat => current
  | ImportResult.imported _ written => written

/-- The ids of a Collection, in order. -/
def idsOf (bs : List Bookmark) : List ℚ :=
  bs.map (fun b => b.id)

/-- The id-uniqueness invariant of §3 of the spec. -/
def UniqueIds (bs : List Bookmark) : Prop :=
  (idsOf bs).Nodup

/-- A bookmark as the client mirror holds it when every field is present;
the filter in App.js calls toLowerCase on title, description and url, so
it is only defined on such records. -/
structure ClientBookmark where
  id : ℚ
  title : String
  url : String
  category : String
  description : String
  dateAdded : String
deriving DecidableEq

/-- JS String.prototype.includes: substring containment. -/
def jsIncludes (s sub : String) : Bool :=
  decide (sub.toList <:+: s.toList)

/-- matchesSearch from App.js: the lowercased search term occurs in the
lowercased title, description or url. -/
def matchesSearch (term : String) (b : ClientBookmark) : Bool :=
  jsIncludes b.title.toLower term.toLower ||
  jsIncludes b.description.toLower term.toLower ||
  jsIncludes b.url.toLower term.toLower

/-- matchesCategory from App.js: the selected category is the literal
string All, or the category of the record equals it exactly. -/
def matchesCategory (sel : String) (b : ClientBookmark) : Bool :=
  decide (sel = "All") || decide (b.category = sel)

/-- filteredBookmarks from App.js: the visible subset of the mirror. -/
def filteredBookmarks (bs : List ClientBookmark) (term sel : String) :
    List ClientBookmark :=
  bs.filter (fun b => matchesSearch term b && matchesCategory sel b)

/-- Modelled from the spec (§4.3): a bookmark is visible exactly when the
search term matches, case-insensitively, at least one of its title,
description, or url, and either the selected category is the All wildcard
or the category of the bookmark equals the selected category exactly. -/
def VisibleSpec (term sel : String) (b : ClientBookmark) : Prop :=
  (term.toLower.toList <:+: b.title.toLower.toList ∨
   term.toLower.toList <:+: b.description.toLower.toList ∨
   term.toLower.toList <:+: b.url.toLower.toList) ∧
  (sel = "All" ∨ b.category = sel)

/-- A concrete valid request body used by witnesses. -/
def exBody : RequestBody :=
  { title := some "Example"
    url := some "https://example.com"
    category := none
    description := none }

/-- A concrete stored record with the integral id 5. -/
def exBook5 : Bookmark :=
  { id := 5
    title := some "A"
    url := some "https://a.test"
    category := some ""
    description := some ""
    dateAdded := some "2024-01-01" }

/-- A concrete stored record with the non-integral id 11/2, as Import
produces. -/
def exBookHalf : Bookmark :=
  { id := mkRat 11 2
    title := some "B"
    url := some "https://b.test"
    category := some ""
    description := some ""
    dateAdded := some "2024-01-01" }

/-- A concrete import payload record that supplies an id but neither a
category nor a description. -/
def exRaw : RawBookmark :=
  { id := some 99
    title := some "X"
    url := some "https://x.test"
    category := none
    description := none
    dateAdded := none }

/-- A concrete oracle of fresh non-integral import ids, pairwise distinct:
the i-th draw is (15 + 2 i) / 2, that is 7.5, 8.5, 9.5, and so on. -/
def exFresh : ℕ → ℚ :=
  fun i => mkRat (15 + 2 * (i : ℤ)) 2

instance instDecUniqueIds (bs : List Bookmark) : Decidable (UniqueIds bs) :=
  List.nodupDecidable (idsOf bs)

/-! Helper lemmas shared by several claims. -/

theorem jsFalsy_or_false {r : RequestBody} (h1 : jsFalsy r.title = false)
    (h2 : jsFalsy r.url = false) : (jsFalsy r.title || jsFalsy r.url) = false := by
  simp [h1, h2]

theorem applyUpdate_id (old : Bookmark) (r : RequestBody) :
    (applyUpdate old r).id = old.id := rfl

theorem updateBookmark_found (pathId : ℚ) (r : RequestBody) (bs : List Bookmark)
    (i : ℕ) (h1 : jsFalsy r.title = false) (h2 : jsFalsy r.url = false)
    (hidx : bs.findIdx (idMatches pathId) = i) (hlt : i < bs.length) :
    updateBookmark pathId r bs =
      UpdateResult.ok (applyUpdate (bs.get ⟨i, hlt⟩) r)
        (bs.set i (applyUpdate (bs.get ⟨i, hlt⟩) r)) := by
  subst hidx
  unfold updateBookmark
  rw [jsFalsy_or_false h1 h2]
  simp only [Bool.false_eq_true, if_false, dif_pos hlt]

theorem updatePersisted_found (pathId : ℚ) (r : RequestBody) (bs : List Bookmark)
    (i : ℕ) (h1 : jsFalsy r.title = false) (h2 : jsFalsy r.url = false)
    (hidx : bs.findIdx (idMatches pathId) = i) (hlt : i < bs.length) :
    updatePersisted pathId r bs = bs.set i (applyUpdate (bs.get ⟨i, hlt⟩) r) := by
  unfold updatePersisted
  rw [updateBookmark_found pathId r bs i h1 h2 hidx hlt]

theorem updatePersisted_cases (pathId : ℚ) (r : RequestBody) (bs : List Bookmark) :
    updatePersisted pathId r bs = bs ∨
      ∃ i, ∃ hlt : i < bs.length,
        idMatches pathId (bs.get ⟨i, hlt⟩) = true ∧
        updatePersisted pathId r bs = bs.set i (applyUpdate (bs.get ⟨i, hlt⟩) r) := by
  unfold updatePersisted updateBookmark
  by_cases hv : (jsFalsy r.title || jsFalsy r.url) = true
  · rw [if_pos hv]
    exact Or.inl rfl
  · rw [if_neg hv]
    by_cases hlt : bs.findIdx (idMatches pathId) < bs.length
    · rw [dif_pos hlt]
      exact Or.inr ⟨bs.findIdx (idMatches pathId), hlt, List.findIdx_getElem, rfl⟩
    · rw [dif_neg hlt]
      exact Or.inl rfl

theorem deletePersisted_cases (pathId : ℚ) (bs : List Bookmark) :
    deletePersisted pathId bs = bs ∨
      deletePersisted pathId bs = bs.filter (fun b => ! idMatches pathId b) := by
  unfold deletePersisted deleteBookmark
  by_cases h : (bs.filter (fun b => ! idMatches pathId b)).length = bs.length
  · rw [if_pos h]
    exact Or.inl rfl
  · rw [if_neg h]
    exact Or.inr rfl

theorem noMatch_behavior (pathId : ℚ) (bs : List Bookmark)
    (habs : ∀ b ∈ bs, b.id ≠ ((jsParseInt pathId : ℤ) : ℚ)) :
    deleteBookmark pathId bs = DeleteResult.notFound ∧
    deletePersisted pathId bs = bs ∧
    (∀ r : RequestBody, updatePersisted pathId r bs = bs) ∧
    (∀ r : RequestBody, jsFalsy r.title = false → jsFalsy r.url = false →
      updateBookmark pathId r bs = UpdateResult.notFound) := by
  have hfil : bs.filter (fun b => ! idMatches pathId b) = bs := by
    rw [List.filter_eq_self]
    intro b hb
    simp [idMatches, habs b hb]
  have hidx : bs.findIdx (idMatches pathId) = bs.length := by
    apply List.findIdx_eq_length_of_false
    intro b hb
    simp [idMatches, habs b hb]
  have hnlt : ¬ bs.findIdx (idMatches pathId) < bs.length := by
    rw [hidx]
    exact Nat.lt_irrefl _
  have hdel : deleteBookmark pathId bs = DeleteResult.notFound := by
    unfold deleteBookmark
    rw [hfil, if_pos rfl]
  refine ⟨hdel, ?_, ?_, ?_⟩
  · unfold deletePersisted
    rw [hdel]
  · intro r
    unfold updatePersisted updateBookmark
    by_cases hv : (jsFalsy r.title || jsFalsy r.url) = true
    · rw [if_pos hv]
    · rw [if_neg hv, dif_neg hnlt]
  · intro r h1 h2
    unfold updateBookmark
    rw [jsFalsy_or_false h1 h2]
    simp only [Bool.false_eq_true, if_false, dif_neg hnlt]

/-- C8: readAll returns the deserialized Collection when the document
exists and parses, and degrades to the empty Collection (never a failure)
when the document is missing or malformed; the List endpoint therefore
answers the empty list in the degraded cases. -/
theorem readAll_swallows_and_degrades :
    (∀ bs, readBookmarks (DocState.parsed bs) = bs) ∧
    readBookmarks DocState.missing = [] ∧
    readBookmarks DocState.malformed = [] ∧
    (∀ d, listBookmarks d = readBookmarks d) ∧
    listBookmarks DocState.missing = [] ∧
    listBookmarks DocState.malformed = [] :=
  ⟨fun _ => rfl, rfl, rfl, fun _ => rfl, rfl, rfl⟩

/-- C7: membership in the visible subset computed by the client is exactly
the case-insensitive search match on title, description or url combined
with the exact category match or the All wildcard. -/
theorem filteredBookmarks_mem_iff (bs : List ClientBookmark) (term sel : String)
    (b : ClientBookmark) :
    b ∈ filteredBookmarks bs term sel ↔ b ∈ bs ∧ VisibleSpec term sel b := by
  unfold filteredBookmarks VisibleSpec matchesSearch matchesCategory jsIncludes
  rw [List.mem_filter]
  simp [or_assoc]

/-- C6: a Create or Update request with an absent or empty title, or an
absent or empty url, is rejected with a validation error before the
Collection is even read, and the persisted Collection is unchanged. -/
theorem validation_rejects_and_preserves (r : RequestBody)
    (h : jsFalsy r.title = true ∨ jsFalsy r.url = true) :
    ∀ (now : ℤ) (today : String) (pathId : ℚ) (bs : List Bookmark),
      createBookmark now today r bs = CreateResult.validationError ∧
      createPersisted now today r bs = bs ∧
      updateBookmark pathId r bs = UpdateResult.validationError ∧
      updatePersisted pathId r bs = bs := by
  intro now today pathId bs
  have hv : (jsFalsy r.title || jsFalsy r.url) = true := by
    rcases h with h | h <;> simp [h]
  have hc : createBookmark now today r bs = CreateResult.validationError := by
    unfold createBookmark
    rw [if_pos hv]
  have hu : updateBookmark pathId r bs = UpdateResult.validationError := by
    unfold updateBookmark
    rw [if_pos hv]
  refine ⟨hc, ?_, hu, ?_⟩
  · unfold createPersisted
    rw [hc]
  · unfold updatePersisted
    rw [hu]

/-- Witness for C6 at a concrete input: an empty title is rejected and the
stored Collection stays as it was. -/
theorem validation_rejects_and_preserves_witness :
    createBookmark 100 "2024-01-02"
        { title := some "", url := some "https://a.test",
          category := none, description := none } [exBook5] =
      CreateResult.validationError ∧
    createPersisted 100 "2024-01-02"
        { title := some "", url := some "https://a.test",
          category := none, description := none } [exBook5] = [exBook5] := by
  have h := validation_rejects_and_preserves
    { title := some "", url := some "https://a.test",
      category := none, description := none }
    (Or.inl (by decide)) 100 "2024-01-02" 0 [exBook5]
  exact ⟨h.1, h.2.1⟩

/-- C5: an Update or Delete whose parsed path id matches no stored record
answers not-found and never reaches a write, so the persisted Collection
is exactly the one read; for Update this holds for every body, and the
not-found response itself holds whenever the body passes validation. -/
theorem noMatch_notFound_preserves (pathId : ℚ) (bs : List Bookmark)
    (habs : ∀ b ∈ bs, b.id ≠ ((jsParseInt pathId : ℤ) : ℚ)) :
    deleteBookmark pathId bs = DeleteResult.notFound ∧
    deletePersisted pathId bs = bs ∧
    (∀ r : RequestBody, updatePersisted pathId r bs = bs) ∧
    (∀ r : RequestBody, jsFalsy r.title = false → jsFalsy r.url = false →
      updateBookmark pathId r bs = UpdateResult.notFound) :=
  noMatch_behavior pathId bs habs

/-- Witness for C5 at a concrete input: path id 9 matches nothing in a
one-record Collection with id 5. -/
theorem noMatch_notFound_preserves_witness :
    deleteBookmark 9 [exBook5] = DeleteResult.notFound ∧
    deletePersisted 9 [exBook5] = [exBook5] ∧
    updateBookmark 9 exBody [exBook5] = UpdateResult.notFound := by
  have h := noMatch_notFound_preserves 9 [exBook5] (by decide)
  exact ⟨h.1, h.2.1, h.2.2.2 exBody (by decide) (by decide)⟩

/-- C4: an Update with valid title and url whose parsed path id matches a
stored record keeps that record id and dateAdded and replaces title, url,
category and description by the request values, with the two optional
fields defaulted to the empty string when absent. -/
theorem update_applies_request_fields (pathId : ℚ) (r : RequestBody)
    (bs : List Bookmark) (i : ℕ)
    (h1 : jsFalsy r.title = false) (h2 : jsFalsy r.url = false)
    (hidx : bs.findIdx (idMatches pathId) = i) (hlt : i < bs.length) :
    updateBookmark pathId r bs =
      UpdateResult.ok (applyUpdate (bs.get ⟨i, hlt⟩) r)
        (bs.set i (applyUpdate (bs.get ⟨i, hlt⟩) r)) ∧
    (bs.set i (applyUpdate (bs.get ⟨i, hlt⟩) r))[i]? =
      some (applyUpdate (bs.get ⟨i, hlt⟩) r) ∧
    (applyUpdate (bs.get ⟨i, hlt⟩) r).id = (bs.get ⟨i, hlt⟩).id ∧
    (applyUpdate (bs.get ⟨i, hlt⟩) r).dateAdded = (bs.get ⟨i, hlt⟩).dateAdded ∧
    (applyUpdate (bs.get ⟨i, hlt⟩) r).title = r.title ∧
    (applyUpdate (bs.get ⟨i, hlt⟩) r).url = r.url ∧
    (applyUpdate (bs.get ⟨i, hlt⟩) r).category = some (jsOrEmpty r.category) ∧
    (applyUpdate (bs.get ⟨i, hlt⟩) r).description = some (jsOrEmpty r.description) := by
  refine ⟨updateBookmark_found pathId r bs i h1 h2 hidx hlt, ?_, rfl, rfl, rfl, rfl, rfl, rfl⟩
  exact List.getElem?_set_eq_of_lt _ hlt

/-- Witness for C4 at a concrete input: updating id 5 in a one-record
Collection. -/
theorem update_applies_request_fields_witness :
    updateBookmark 5 exBody [exBook5] =
      UpdateResult.ok (applyUpdate exBook5 exBody) [applyUpdate exBook5 exBody] ∧
    (applyUpdate exBook5 exBody).id = exBook5.id ∧
    (applyUpdate exBook5 exBody).dateAdded = exBook5.dateAdded := by
  have h := update_applies_request_fields 5 exBody [exBook5] 0
    (by decide) (by decide) (by decide) (by decide)
  exact ⟨h.1, h.2.2.1, h.2.2.2.1⟩

/-- C10: a successful Update writes a Collection of the same length in
which the record at the matched position is the replaced one and every
other position is unchanged field for field. -/
theorem update_frame_preserved (pathId : ℚ) (r : RequestBody)
    (bs : List Bookmark) (i : ℕ)
    (h1 : jsFalsy r.title = false) (h2 : jsFalsy r.url = false)
    (hidx : bs.findIdx (idMatches pathId) = i) (hlt : i < bs.length) :
    (updatePersisted pathId r bs).length = bs.length ∧
    (updatePersisted pathId r bs)[i]? = some (applyUpdate (bs.get ⟨i, hlt⟩) r) ∧
    ∀ j, j ≠ i → (updatePersisted pathId r bs)[j]? = bs[j]? := by
  rw [updatePersisted_found pathId r bs i h1 h2 hidx hlt]
  refine ⟨List.length_set bs i _, List.getElem?_set_eq_of_lt _ hlt, ?_⟩
  intro j hj
  exact List.getElem?_set_ne (fun h => hj h.symm)

/-- Witness for C10 at a concrete input: updating id 5 in a two-record
Collection leaves the other record untouched. -/
theorem update_frame_preserved_witness :
    (updatePersisted 5 exBody [exBook5, exBookHalf]).length = 2 ∧
    (updatePersisted 5 exBody [exBook5, exBookHalf])[1]? = some exBookHalf := by
  have h := update_frame_preserved 5 exBody [exBook5, exBookHalf] 0
    (by decide) (by decide) (by decide) (by decide)
  exact ⟨h.1, (h.2.2 1 (by decide)).trans (by decide)⟩

/-- Counterexample to C3 as stated: Create called at time 5 against a
Collection that already stores a record with id 5 returns a record whose
id is already present in the pre-call Collection, because the handler
assigns Date.now() without checking for collisions. -/
theorem create_can_return_preexisting_id :
    createBookmark 5 "2024-01-02" exBody [exBook5] =
      CreateResult.created (mkNewBookmark 5 "2024-01-02" exBody)
        [exBook5, mkNewBookmark 5 "2024-01-02" exBody] ∧
    (mkNewBookmark 5 "2024-01-02" exBody).id ∈ idsOf [exBook5] :=
  ⟨by decide, by decide⟩

/-- C3 amended: when the time-based id drawn by Create does not already
occur in the pre-call Collection, the returned record has an id absent
from the pre-call Collection and is itself appended, with all of its
field values, to the post-call Collection. -/
theorem create_fresh_id_appends (now : ℤ) (today : String) (r : RequestBody)
    (bs : List Bookmark)
    (h1 : jsFalsy r.title = false) (h2 : jsFalsy r.url = false)
    (hfresh : ((now : ℤ) : ℚ) ∉ idsOf bs) :
    createBookmark now today r bs =
      CreateResult.created (mkNewBookmark now today r)
        (bs ++ [mkNewBookmark now today r]) ∧
    (mkNewBookmark now today r).id ∉ idsOf bs ∧
    createPersisted now today r bs = bs ++ [mkNewBookmark now today r] ∧
    mkNewBookmark now today r ∈ createPersisted now today r bs := by
  have hc : createBookmark now today r bs =
      CreateResult.created (mkNewBookmark now today r)
        (bs ++ [mkNewBookmark now today r]) := by
    unfold createBookmark
    rw [jsFalsy_or_false h1 h2]
    simp only [Bool.false_eq_true, if_false]
  have hp : createPersisted now today r bs = bs ++ [mkNewBookmark now today r] := by
    unfold createPersisted
    rw [hc]
  refine ⟨hc, hfresh, hp, ?_⟩
  rw [hp]
  exact List.mem_append_right bs (List.mem_singleton.mpr rfl)

/-- Witness for the amended C3 at a concrete input: time 100 is fresh for
a Collection whose only id is 5. -/
theorem create_fresh_id_appends_witness :
    (mkNewBookmark 100 "2024-01-02" exBody).id ∉ idsOf [exBook5] ∧
    createPersisted 100 "2024-01-02" exBody [exBook5] =
      [exBook5, mkNewBookmark 100 "2024-01-02" exBody] := by
  have h := create_fresh_id_appends 100 "2024-01-02" exBody [exBook5]
    (by decide) (by decide) (by decide)
  exact ⟨h.2.1, h.2.2.1⟩

theorem mem_set_of_ne {α : Type} {l : List α} {a x : α} {i : ℕ}
    (hmem : a ∈ l) (hne : ∀ hlt : i < l.length, a ≠ l.get ⟨i, hlt⟩) :
    a ∈ l.set i x := by
  obtain ⟨j, hj, hja⟩ := List.mem_iff_getElem.1 hmem
  have hij : i ≠ j := by
    intro he
    subst he
    exact hne hj hja.symm
  refine List.mem_iff_getElem.2 ⟨j, ?_, ?_⟩
  · rw [List.length_set]
    exact hj
  · rw [List.getElem_set_ne hij]
    exact hja

/-- Counterexample to C9 as stated: the Collection [id 5, id 11/2] and a
Delete whose path carries the fractional id 11/2 of the second record;
parseInt truncates it to 5, the call succeeds, removes the record with
id 5, and the persisted Collection changes, instead of the claimed
not-found error with an unchanged Collection. -/
theorem fractional_path_id_can_hit_other_record :
    exBookHalf.id.den ≠ 1 ∧
    exBookHalf ∈ [exBook5, exBookHalf] ∧
    deleteBookmark exBookHalf.id [exBook5, exBookHalf] =
      DeleteResult.deleted [exBookHalf] ∧
    deletePersisted exBookHalf.id [exBook5, exBookHalf] ≠ [exBook5, exBookHalf] :=
  ⟨by decide, by decide, by decide, by decide⟩

/-- C9 amended: a record with a non-integral id is itself never removed or
replaced by an Update or Delete that carries its own id (it survives in
the persisted Collection); and when additionally no stored id equals the
integer truncation of that id, the call answers not-found and the
Collection is unchanged. -/
theorem fractional_id_record_unreachable (bs : List Bookmark) (b : Bookmark)
    (hmem : b ∈ bs) (hden : b.id.den ≠ 1) :
    b ∈ deletePersisted b.id bs ∧
    (∀ r : RequestBody, b ∈ updatePersisted b.id r bs) ∧
    ((∀ c ∈ bs, c.id ≠ ((jsParseInt b.id : ℤ) : ℚ)) →
      deleteBookmark b.id bs = DeleteResult.notFound ∧
      deletePersisted b.id bs = bs ∧
      (∀ r : RequestBody, updatePersisted b.id r bs = bs) ∧
      (∀ r : RequestBody, jsFalsy r.title = false → jsFalsy r.url = false →
        updateBookmark b.id r bs = UpdateResult.notFound)) := by
  have hne : b.id ≠ ((jsParseInt b.id : ℤ) : ℚ) := by
    intro he
    apply hden
    rw [he]
    exact Rat.den_intCast _
  have hmatch : idMatches b.id b = false := by
    simp [idMatches, hne]
  refine ⟨?_, ?_, noMatch_behavior b.id bs⟩
  · rcases deletePersisted_cases b.id bs with h | h
    · rw [h]
      exact hmem
    · rw [h]
      refine List.mem_filter.2 ⟨hmem, ?_⟩
      simp [hmatch]
  · intro r
    rcases updatePersisted_cases b.id r bs with h | ⟨i, hlt, hpred, h⟩
    · rw [h]
      exact hmem
    · rw [h]
      apply mem_set_of_ne hmem
      intro hlt2 hbe
      have hid : b.id = ((jsParseInt b.id : ℤ) : ℚ) := by
        conv_lhs => rw [hbe]
        exact of_decide_eq_true hpred
      exact hne hid

/-- Witness for the amended C9 at a concrete input: the record with id
11/2 alone in the Collection survives a Delete by its own id, which
answers not-found. -/
theorem fractional_id_record_unreachable_witness :
    exBookHalf ∈ deletePersisted exBookHalf.id [exBookHalf] ∧
    deleteBookmark exBookHalf.id [exBookHalf] = DeleteResult.notFound := by
  have h := fractional_id_record_unreachable [exBookHalf] exBookHalf
    (by decide) (by decide)
  exact ⟨h.1, (h.2.2 (by decide)).1⟩

theorem idsOf_append (l1 l2 : List Bookmark) :
    idsOf (l1 ++ l2) = idsOf l1 ++ idsOf l2 :=
  List.map_append _ _ _

theorem length_withNewIds (f : ℕ → ℚ) (l : List RawBookmark) (i : ℕ) :
    (withNewIds f l i).length = l.length := by
  induction l generalizing i with
  | nil => rfl
  | cons r rest ih => simp [withNewIds, ih]

theorem mem_idsOf_withNewIds {f : ℕ → ℚ} {l : List RawBookmark} {i : ℕ} {q : ℚ} :
    q ∈ idsOf (withNewIds f l i) ↔ ∃ k, k < l.length ∧ q = f (i + k) := by
  induction l generalizing i with
  | nil => simp [withNewIds, idsOf]
  | cons r rest ih =>
      have hcons : idsOf (withNewIds f (r :: rest) i) =
          f i :: idsOf (withNewIds f rest (i + 1)) := rfl
      rw [hcons, List.mem_cons, ih]
      constructor
      · rintro (h | ⟨k, hk, he⟩)
        · exact ⟨0, Nat.succ_pos _, by rw [Nat.add_zero]; exact h⟩
        · have hk2 : i + 1 + k = i + (k + 1) := by omega
          exact ⟨k + 1, by simp only [List.length_cons]; omega, by rw [he, hk2]⟩
      · rintro ⟨k, hk, he⟩
        cases k with
        | zero => exact Or.inl (by rw [he, Nat.add_zero])
        | succ k =>
            have hk2 : i + (k + 1) = i + 1 + k := by omega
            have hk3 : k < rest.length := by
              simp only [List.length_cons] at hk
              omega
            exact Or.inr ⟨k, hk3, by rw [he, hk2]⟩

theorem nodup_idsOf_withNewIds {f : ℕ → ℚ} {l : List RawBookmark} {i : ℕ}
    (hinj : ∀ j k, j < l.length → k < l.length → j ≠ k → f (i + j) ≠ f (i + k)) :
    (idsOf (withNewIds f l i)).Nodup := by
  induction l generalizing i with
  | nil => exact List.nodup_nil
  | cons r rest ih =>
      have hcons : idsOf (withNewIds f (r :: rest) i) =
          f i :: idsOf (withNewIds f rest (i + 1)) := rfl
      rw [hcons, List.nodup_cons]
      constructor
      · intro hmem2
        obtain ⟨k, hk, he⟩ := mem_idsOf_withNewIds.1 hmem2
        have hne := hinj 0 (k + 1) (Nat.succ_pos _) (by simpa using Nat.succ_lt_succ hk)
          (by omega)
        apply hne
        have h1 : i + 0 = i := by omega
        have h2 : i + (k + 1) = i + 1 + k := by omega
        rw [h1, h2]
        exact he
      · apply ih
        intro j k hj hk hne
        have h1 : i + 1 + j = i + (j + 1) := by omega
        have h2 : i + 1 + k = i + (k + 1) := by omega
        rw [h1, h2]
        exact hinj (j + 1) (k + 1) (by simpa using Nat.succ_lt_succ hj)
          (by simpa using Nat.succ_lt_succ hk) (by omega)

theorem importPersisted_some (f : ℕ → ℚ) (input : List RawBookmark)
    (current : List Bookmark) :
    importPersisted f (some input) current = current ++ withNewIds f input 0 := rfl

theorem importPersisted_unique (f : ℕ → ℚ) (input : List RawBookmark)
    (bs : List Bookmark) (h : UniqueIds bs)
    (hinj : ∀ i j, i < input.length → j < input.length → i ≠ j → f i ≠ f j)
    (habs : ∀ i, i < input.length → f i ∉ idsOf bs) :
    UniqueIds (importPersisted f (some input) bs) := by
  show (idsOf (bs ++ withNewIds f input 0)).Nodup
  rw [idsOf_append, List.nodup_append]
  refine ⟨h, ?_, ?_⟩
  · apply nodup_idsOf_withNewIds
    intro j k hj hk hne
    rw [Nat.zero_add, Nat.zero_add]
    exact hinj j k hj hk hne
  · intro q hq hq2
    obtain ⟨k, hk, he⟩ := mem_idsOf_withNewIds.1 hq2
    rw [Nat.zero_add] at he
    exact habs k hk (he ▸ hq)

theorem idsOf_set_same {bs : List Bookmark} {i : ℕ} {b : Bookmark}
    (hlt : i < bs.length) (hid : b.id = (bs.get ⟨i, hlt⟩).id) :
    idsOf (bs.set i b) = idsOf bs := by
  apply List.ext_getElem?
  intro n
  unfold idsOf
  rw [List.getElem?_map, List.getElem?_map]
  by_cases hni : n = i
  · subst hni
    rw [List.getElem?_set_eq_of_lt _ hlt, List.getElem?_eq_getElem hlt]
    exact congrArg some hid
  · rw [List.getElem?_set_ne (fun he => hni he.symm)]

/-- Counterexample to C2 as stated: the Collection holding only a record
with id 5 has pairwise distinct ids, yet the single Create operation
issued at time 5 (two writes inside the same millisecond) produces a
Collection with a duplicated id. -/
theorem uniqueIds_broken_by_create_collision :
    UniqueIds [exBook5] ∧
    ¬ UniqueIds (createPersisted 5 "2024-01-02" exBody [exBook5]) :=
  ⟨by decide, by decide⟩

/-- C2 amended: starting from a Collection with pairwise distinct ids,
Update, Delete and Clear-all preserve distinctness unconditionally;
Create preserves it provided the time-based id it draws is not already
present; Import preserves it provided the drawn ids are pairwise distinct
and none is already present; in particular such an Import of n records
into the empty Collection yields n records with pairwise distinct ids. -/
theorem uniqueIds_invariant_with_fresh_ids (bs : List Bookmark)
    (h : UniqueIds bs) :
    (∀ (now : ℤ) (today : String) (r : RequestBody),
       ((now : ℤ) : ℚ) ∉ idsOf bs → UniqueIds (createPersisted now today r bs)) ∧
    (∀ (pathId : ℚ) (r : RequestBody), UniqueIds (updatePersisted pathId r bs)) ∧
    (∀ pathId : ℚ, UniqueIds (deletePersisted pathId bs)) ∧
    UniqueIds clearAllPersisted ∧
    (∀ (f : ℕ → ℚ) (input : List RawBookmark),
       (∀ i j, i < input.length → j < input.length → i ≠ j → f i ≠ f j) →
       (∀ i, i < input.length → f i ∉ idsOf bs) →
       UniqueIds (importPersisted f (some input) bs)) ∧
    (∀ (f : ℕ → ℚ) (input : List RawBookmark),
       (∀ i j, i < input.length → j < input.length → i ≠ j → f i ≠ f j) →
       (importPersisted f (some input) ([] : List Bookmark)).length =
         input.length ∧
       UniqueIds (importPersisted f (some input) ([] : List Bookmark))) := by
  refine ⟨?_, ?_, ?_, ?_, ?_, ?_⟩
  · intro now today r hfresh
    unfold createPersisted createBookmark
    by_cases hv : (jsFalsy r.title || jsFalsy r.url) = true
    · rw [if_pos hv]
      exact h
    · rw [if_neg hv]
      show (idsOf (bs ++ [mkNewBookmark now today r])).Nodup
      rw [idsOf_append, List.nodup_append]
      refine ⟨h, List.nodup_singleton _, ?_⟩
      intro q hq hq2
      simp only [idsOf, mkNewBookmark, List.map_cons, List.map_nil,
        List.mem_singleton] at hq2
      apply hfresh
      rw [← hq2]
      exact hq
  · intro pathId r
    rcases updatePersisted_cases pathId r bs with he | ⟨i, hlt, _, he⟩
    · rw [he]
      exact h
    · rw [he]
      show (idsOf (bs.set i (applyUpdate (bs.get ⟨i, hlt⟩) r))).Nodup
      rw [idsOf_set_same hlt (applyUpdate_id (bs.get ⟨i, hlt⟩) r)]
      exact h
  · intro pathId
    rcases deletePersisted_cases pathId bs with he | he
    · rw [he]
      exact h
    · rw [he]
      show (List.map (fun b => b.id)
        (bs.filter (fun b => ! idMatches pathId b))).Nodup
      exact List.Nodup.sublist
        (List.Sublist.map (fun b => b.id) (List.filter_sublist bs)) h
  · exact List.nodup_nil
  · intro f input hinj habs
    exact importPersisted_unique f input bs h hinj habs
  · intro f input hinj
    constructor
    · rw [importPersisted_some]
      rw [List.nil_append]
      exact length_withNewIds f input 0
    · refine importPersisted_unique f input [] List.nodup_nil hinj ?_
      intro i hi hcontra
      simp [idsOf] at hcontra

/-- Witness for the amended C2 at a concrete input: importing two records
with distinct fresh ids into a singleton Collection with a disjoint id
keeps all ids pairwise distinct, and the same Import into the empty
Collection yields two records. -/
theorem uniqueIds_invariant_with_fresh_ids_witness :
    UniqueIds [exBook5] ∧
    UniqueIds (importPersisted exFresh (some [exRaw, exRaw]) [exBook5]) ∧
    (importPersisted exFresh (some [exRaw, exRaw]) ([] : List Bookmark)).length = 2 := by
  have h5 : UniqueIds [exBook5] := by decide
  have hinj : ∀ i j, i < ([exRaw, exRaw] : List RawBookmark).length →
      j < ([exRaw, exRaw] : List RawBookmark).length → i ≠ j →
      exFresh i ≠ exFresh j := by
    intro i j hi hj hne
    simp only [List.length_cons, List.length_nil] at hi hj
    interval_cases i <;> interval_cases j <;>
      first
        | exact absurd rfl hne
        | decide
  have habs : ∀ i, i < ([exRaw, exRaw] : List RawBookmark).length →
      exFresh i ∉ idsOf [exBook5] := by
    intro i hi
    simp only [List.length_cons, List.length_nil] at hi
    interval_cases i <;> decide
  have h := uniqueIds_invariant_with_fresh_ids [exBook5] h5
  refine ⟨h5, h.2.2.2.2.1 exFresh [exRaw, exRaw] hinj habs, ?_⟩
  exact (h.2.2.2.2.2 exFresh [exRaw, exRaw] hinj).1

/-- C1, evaluated at the failing input: importing the single record
\x7b id: 99, title: X, url: https://x.test \x7d (no category, no description)
into the empty Collection strips the supplied id, assigns the fresh drawn
id, reports count 1 and appends the record — but stores it with category
and description still absent instead of defaulting them to the empty
string, contrary to the defaulting the specification describes (and
contrary to what the client filter needs, since it calls toLowerCase on
the description of every mirrored record). -/
theorem import_keeps_optional_fields_absent :
    importHandler exFresh (some [exRaw]) [] =
      ImportResult.imported 1
        [{ id := mkRat 15 2
           title := some "X"
           url := some "https://x.test"
           category := none
           description := none
           dateAdded := none }] ∧
    importPersisted exFresh (some [exRaw]) [] =
      [withNewId (mkRat 15 2) exRaw] ∧
    (withNewId (mkRat 15 2) exRaw).category ≠ some "" ∧
    (withNewId (mkRat 15 2) exRaw).description ≠ some "" :=
  ⟨by decide, by decide, by decide, by decide⟩
